import Mathlib

/-!
Verification of the HarnessApp pomodoro application.

This file gives a shallow embedding of the application's core logic:
the Timer session state machine (timer.js), the App orchestrator's
streak and history bookkeeping (app.js), the settings clamping logic
(settings.js) and the task-list active-task handling (tasks.js).
DOM rendering, audio, notifications and localStorage writes are pure
side channels in the source and are out of the model; the externally
visible onTick / onTimerEnd callback invocations are modelled as an
explicit event trace.  JavaScript numbers holding second counts are
modelled as Int (the tick decrement may momentarily pass through 0),
calendar days as an integer day index (toDateString values are
midnight-aligned, so the millisecond difference divided by a day is
exactly the day-index difference), and task / saved-state ids as Nat.
The jsOr* helpers model the JavaScript expression a or-else d over a
falsy check (0, false, absent).
-/

namespace HarnessApp

/-- The three session types of timer.js: 'work', 'shortBreak', 'longBreak'. -/
inductive SessionType where
  | work
  | shortBreak
  | longBreak
deriving DecidableEq, Repr

/-- The settings object held by the Timer module (timer.js lines 18-23). -/
structure TimerSettings where
  workDuration : Nat
  shortBreakDuration : Nat
  longBreakDuration : Nat
  pomodorosUntilLongBreak : Nat
deriving DecidableEq, Repr

/-- The Timer module's mutable state (timer.js lines 8-15); intervalId is
UI plumbing and omitted. -/
structure TimerState where
  timeRemaining : Int
  isRunning : Bool
  isPaused : Bool
  sessionType : SessionType
  completedPomodoros : Nat
deriving DecidableEq, Repr

/-- The initial Timer state (timer.js lines 8-15). -/
def initialTimerState : TimerState :=
  { timeRemaining := 25 * 60, isRunning := false, isPaused := false,
    sessionType := SessionType.work, completedPomodoros := 0 }

/-- Externally observable callback invocations made by the Timer module.
onTimerEndCall records the sessionType argument passed to the callback and
the value of state.isRunning at the moment of the call. -/
inductive TimerEvent where
  | onTickCall (timeRemaining : Int) (sessionType : SessionType)
  | onTimerEndCall (sessionType : SessionType) (isRunningAtCall : Bool)
deriving DecidableEq, Repr

/-- Whether an event is an end-of-session notification. -/
def isTimerEndEvent : TimerEvent → Bool
  | TimerEvent.onTimerEndCall _ _ => true
  | TimerEvent.onTickCall _ _ => false

/-- pause (timer.js lines 224-236): no-op unless running, otherwise stops
the cadence and marks the timer paused. -/
def pause (s : TimerState) : TimerState :=
  if s.isRunning then { s with isRunning := false, isPaused := true } else s

/-- startWorkSession (timer.js lines 315-323), state part. -/
def startWorkSession (cfg : TimerSettings) (s : TimerState) : TimerState :=
  { s with sessionType := SessionType.work,
           timeRemaining := (cfg.workDuration : Int) * 60 }

/-- startShortBreak (timer.js lines 328-335), state part. -/
def startShortBreak (cfg : TimerSettings) (s : TimerState) : TimerState :=
  { s with sessionType := SessionType.shortBreak,
           timeRemaining := (cfg.shortBreakDuration : Int) * 60 }

/-- startLongBreak (timer.js lines 340-347), state part. -/
def startLongBreak (cfg : TimerSettings) (s : TimerState) : TimerState :=
  { s with sessionType := SessionType.longBreak,
           timeRemaining := (cfg.longBreakDuration : Int) * 60 }

/-- handleTimerEnd (timer.js lines 290-310): pause, invoke onTimerEnd with
the current session type, then transition.  Returns the new state together
with the trace of callback invocations. -/
def handleTimerEnd (cfg : TimerSettings) (s : TimerState) :
    TimerState × List TimerEvent :=
  let sp := pause s
  let ev := TimerEvent.onTimerEndCall sp.sessionType sp.isRunning
  if sp.sessionType = SessionType.work then
    let sw : TimerState := { sp with completedPomodoros := sp.completedPomodoros + 1 }
    if sw.completedPomodoros % cfg.pomodorosUntilLongBreak = 0 then
      (startLongBreak cfg sw, [ev])
    else
      (startShortBreak cfg sw, [ev])
  else
    (startWorkSession cfg sp, [ev])

/-- tick (timer.js lines 271-285): decrement, invoke onTick, and when the
remaining time has reached 0 run handleTimerEnd. -/
def tick (cfg : TimerSettings) (s : TimerState) : TimerState × List TimerEvent :=
  let s1 : TimerState := { s with timeRemaining := s.timeRemaining - 1 }
  let tickEv := TimerEvent.onTickCall s1.timeRemaining s1.sessionType
  if s1.timeRemaining ≤ 0 then
    let r := handleTimerEnd cfg s1
    (r.1, tickEv :: r.2)
  else
    (s1, [tickEv])

/-- n successive invocations of tick, accumulating the event trace. -/
def ticks (cfg : TimerSettings) (s : TimerState) : Nat → TimerState × List TimerEvent
  | 0 => (s, [])
  | n + 1 =>
    let r := tick cfg s
    let r2 := ticks cfg r.1 n
    (r2.1, r.2 ++ r2.2)

/-- skipBreak (timer.js lines 261-266): no-op in work, otherwise pause and
start a work session.  Neither callback is invoked, hence the empty trace. -/
def skipBreak (cfg : TimerSettings) (s : TimerState) : TimerState × List TimerEvent :=
  if s.sessionType = SessionType.work then (s, [])
  else (startWorkSession cfg (pause s), [])

/-- A partial settings object as passed to Timer.updateSettings; an absent
field leaves the previous value in place under the JS object spread. -/
structure TimerSettingsPatch where
  workDuration : Option Nat
  shortBreakDuration : Option Nat
  longBreakDuration : Option Nat
  pomodorosUntilLongBreak : Option Nat
deriving DecidableEq, Repr

/-- The spread merge settings = old-spread-new in updateSettings. -/
def mergeSettings (s : TimerSettings) (p : TimerSettingsPatch) : TimerSettings :=
  { workDuration := p.workDuration.getD s.workDuration,
    shortBreakDuration := p.shortBreakDuration.getD s.shortBreakDuration,
    longBreakDuration := p.longBreakDuration.getD s.longBreakDuration,
    pomodorosUntilLongBreak := p.pomodorosUntilLongBreak.getD s.pomodorosUntilLongBreak }

/-- updateSettings (timer.js lines 161-173): merge the new settings and, when
not running, recompute timeRemaining from the new duration of the active
session type. -/
def updateSettings (cfg : TimerSettings) (s : TimerState) (p : TimerSettingsPatch) :
    TimerSettings × TimerState :=
  let cfg2 := mergeSettings cfg p
  if !s.isRunning then
    match s.sessionType with
    | SessionType.work =>
        (cfg2, { s with timeRemaining := (cfg2.workDuration : Int) * 60 })
    | SessionType.shortBreak =>
        (cfg2, { s with timeRemaining := (cfg2.shortBreakDuration : Int) * 60 })
    | SessionType.longBreak =>
        (cfg2, { s with timeRemaining := (cfg2.longBreakDuration : Int) * 60 })
  else
    (cfg2, s)

/-- JS expression v-or-else-d on a number field: absent and 0 are falsy. -/
def jsOrInt (v : Option Int) (d : Int) : Int :=
  match v with
  | none => d
  | some n => if n = 0 then d else n

/-- JS expression v-or-else-d on a nonnegative count: absent and 0 are falsy. -/
def jsOrNat (v : Option Nat) (d : Nat) : Nat :=
  match v with
  | none => d
  | some n => if n = 0 then d else n

/-- JS expression v-or-else-d on a boolean field: absent and false are falsy. -/
def jsOrBool (v : Option Bool) (d : Bool) : Bool :=
  match v with
  | none => d
  | some b => if b = false then d else b

/-- The timer snapshot persisted by saveState (timer.js lines 106-124); each
field may be absent in a malformed snapshot. -/
structure SavedTimerState where
  timeRemaining : Option Int
  sessionType : Option SessionType
  completedPomodoros : Option Nat
  isPaused : Option Bool
deriving DecidableEq, Repr

/-- restoreState (timer.js lines 76-82): each falsy saved field falls back to
its default; isRunning is deliberately not restored. -/
def restoreState (cfg : TimerSettings) (s : TimerState) (sv : SavedTimerState) :
    TimerState :=
  { s with
    timeRemaining := jsOrInt sv.timeRemaining ((cfg.workDuration : Int) * 60),
    sessionType := sv.sessionType.getD SessionType.work,
    completedPomodoros := jsOrNat sv.completedPomodoros 0,
    isPaused := jsOrBool sv.isPaused false }

/-- init (timer.js lines 54-71), state part: restore a saved snapshot if one
exists, otherwise load the full work duration. -/
def timerInit (cfg : TimerSettings) (saved : Option SavedTimerState) : TimerState :=
  match saved with
  | some sv => restoreState cfg initialTimerState sv
  | none => { initialTimerState with timeRemaining := (cfg.workDuration : Int) * 60 }

/-- The App module's daily statistics (app.js lines 12-18), with calendar
days as an integer day index. -/
structure Stats where
  todayPomodoros : Nat
  todayFocusTime : Nat
  lastDate : Int
  streak : Nat
  lastStreakDate : Option Int
deriving DecidableEq, Repr

/-- checkDateReset (app.js lines 365-385): on a new day, zero the daily
counters and reset the streak when more than one day was skipped. -/
def checkDateReset (s : Stats) (today : Int) : Stats :=
  if s.lastDate ≠ today then
    let streak2 :=
      match s.lastStreakDate with
      | some d => if today - d > 1 then 0 else s.streak
      | none => s.streak
    { s with streak := streak2, todayPomodoros := 0, todayFocusTime := 0,
             lastDate := today }
  else s

/-- updateStreak (app.js lines 390-416): on the first pomodoro of a day,
increment the streak when the previous streak day was exactly one day prior,
restart it at 1 when more than one day was skipped or on the first ever
pomodoro, and record today as the streak day. -/
def updateStreak (s : Stats) (today : Int) : Stats :=
  if s.lastStreakDate = some today then s
  else
    let streak2 :=
      match s.lastStreakDate with
      | some d =>
        let daysDiff := today - d
        if daysDiff = 1 then s.streak + 1
        else if daysDiff > 1 then 1
        else s.streak
      | none => 1
    { s with streak := streak2, lastStreakDate := some today }

/-- A session-history entry (app.js lines 159-163), timestamps as Nat. -/
structure HistoryEntry where
  timestamp : Nat
  duration : Nat
  task : Option String
deriving DecidableEq, Repr

/-- saveHistory (app.js lines 143-153), in-memory part: keep only the last
50 sessions (slice of the final 50 elements) before persisting. -/
def saveHistory (h : List HistoryEntry) : List HistoryEntry :=
  if h.length > 50 then h.drop (h.length - 50) else h

/-- addHistoryEntry (app.js lines 158-168): append the new entry and trim via
saveHistory. -/
def addHistoryEntry (h : List HistoryEntry) (e : HistoryEntry) :
    List HistoryEntry :=
  saveHistory (h ++ [e])

/-- The Settings module's settings object (settings.js defaults shape). -/
structure SettingsState where
  workDuration : Int
  shortBreakDuration : Int
  longBreakDuration : Int
  pomodorosUntilLongBreak : Int
  soundEnabled : Bool
  soundStyle : String
  browserNotifications : Bool
  darkMode : Bool
  autoStart : Bool
deriving DecidableEq, Repr

/-- The defaults object of settings.js. -/
def settingsDefaults : SettingsState :=
  { workDuration := 25, shortBreakDuration := 5, longBreakDuration := 15,
    pomodorosUntilLongBreak := 4, soundEnabled := true, soundStyle := "classic",
    browserNotifications := false, darkMode := false, autoStart := false }

/-- The settings form as read by saveFromForm: a numeric field is the parseInt
of the input (absent when the input is empty or non-numeric, making parseInt
NaN and hence falsy), checkbox and select fields are read directly. -/
structure SettingsForm where
  workDuration : Option Int
  shortBreak : Option Int
  longBreak : Option Int
  pomodorosUntilLong : Option Int
  soundEnabled : Bool
  soundStyle : String
  browserNotifications : Bool
  darkMode : Bool
  autoStart : Bool
deriving DecidableEq, Repr

/-- Math.max lo (Math.min hi x), the clamping pattern of saveFromForm. -/
def clampInt (lo hi x : Int) : Int := max lo (min hi x)

/-- saveFromForm (settings.js lines 379-403): read each field with a default
fallback for falsy parses, then clamp the numeric fields to their ranges. -/
def saveFromForm (form : SettingsForm) : SettingsState :=
  let s : SettingsState :=
    { workDuration := jsOrInt form.workDuration settingsDefaults.workDuration,
      shortBreakDuration := jsOrInt form.shortBreak settingsDefaults.shortBreakDuration,
      longBreakDuration := jsOrInt form.longBreak settingsDefaults.longBreakDuration,
      pomodorosUntilLongBreak :=
        jsOrInt form.pomodorosUntilLong settingsDefaults.pomodorosUntilLongBreak,
      soundEnabled := form.soundEnabled,
      soundStyle := form.soundStyle,
      browserNotifications := form.browserNotifications,
      darkMode := form.darkMode,
      autoStart := form.autoStart }
  { s with
    workDuration := clampInt 1 60 s.workDuration,
    shortBreakDuration := clampInt 1 15 s.shortBreakDuration,
    longBreakDuration := clampInt 5 60 s.longBreakDuration,
    pomodorosUntilLongBreak := clampInt 2 10 s.pomodorosUntilLongBreak }

/-- A task (tasks.js lines 58-65), ids and timestamps as Nat. -/
structure Task where
  id : Nat
  text : String
  completed : Bool
  createdAt : Nat
  completedAt : Option Nat
  estimatedPomodoros : Nat
  actualPomodoros : Nat
deriving DecidableEq, Repr

/-- The Tasks module's state: the task list and the active-task id. -/
structure TasksState where
  tasks : List Task
  activeTaskId : Option Nat
deriving DecidableEq, Repr

/-- Tasks.init (tasks.js lines 24-35): adopt the saved list, and keep a saved
active-task id only when a matching non-completed task still exists. -/
def tasksInit (savedTasks : List Task) (savedId : Option Nat) : TasksState :=
  { tasks := savedTasks,
    activeTaskId :=
      match savedId with
      | none => none
      | some i =>
          if savedTasks.any (fun t => t.id == i && !t.completed) then some i
          else none }

/-- The in-place completion flip applied by toggleTask to the found task. -/
def toggledTask (now : Nat) (t : Task) : Task :=
  if t.completed then { t with completed := false, completedAt := none }
  else { t with completed := true, completedAt := some now }

/-- Flip the first task with the given id, as the mutation through the
reference returned by tasks.find does. -/
def flipFirst (now i : Nat) : List Task → List Task
  | [] => []
  | t :: ts =>
      if t.id == i then toggledTask now t :: ts
      else t :: flipFirst now i ts

/-- toggleTask (tasks.js lines 77-93): flip the first matching task; when the
task just became completed and was the active task, clear the designation. -/
def toggleTask (s : TasksState) (i now : Nat) : TasksState :=
  match s.tasks.find? (fun t => t.id == i) with
  | none => s
  | some t =>
      { tasks := flipFirst now i s.tasks,
        activeTaskId :=
          if t.completed = false ∧ s.activeTaskId = some i then none
          else s.activeTaskId }

/-- deleteTask (tasks.js lines 98-106): clear the designation when the deleted
task was active, then remove every task with the id. -/
def deleteTask (s : TasksState) (i : Nat) : TasksState :=
  { tasks := s.tasks.filter (fun t => t.id != i),
    activeTaskId := if s.activeTaskId = some i then none else s.activeTaskId }

/-- The active-task invariant: the designation, when present, names an
existing non-completed task. -/
def ActiveOk (s : TasksState) : Prop :=
  ∀ a, s.activeTaskId = some a → ∃ t ∈ s.tasks, t.id = a ∧ t.completed = false

@[simp]
theorem pause_sessionType (s : TimerState) : (pause s).sessionType = s.sessionType := by
  unfold pause; split <;> rfl

@[simp]
theorem pause_completedPomodoros (s : TimerState) :
    (pause s).completedPomodoros = s.completedPomodoros := by
  unfold pause; split <;> rfl

@[simp]
theorem pause_timeRemaining (s : TimerState) :
    (pause s).timeRemaining = s.timeRemaining := by
  unfold pause; split <;> rfl

@[simp]
theorem pause_isRunning (s : TimerState) : (pause s).isRunning = false := by
  unfold pause
  split
  · rfl
  · simp_all

theorem pause_eq (s : TimerState) :
    pause s = { s with isRunning := false, isPaused := s.isRunning || s.isPaused } := by
  rcases s with ⟨tr, ir, ip, st, cp⟩
  cases ir <;> simp [pause]

/-- C1: on reaching zero in a Work session, handleTimerEnd increments
completedPomodoros by exactly 1 and transitions to LongBreak exactly when the
incremented count mod pomodorosUntilLongBreak is 0 and to ShortBreak
otherwise; on reaching zero in either break it transitions to Work
unconditionally; and with 4 pomodoros until the long break, starting from 0
completed pomodoros, work completions 1 to 3 (the odd-numbered session ends)
lead to ShortBreak while the 4th leads to LongBreak. -/
theorem handleTimerEnd_transition (cfg : TimerSettings) (s : TimerState) :
    (s.sessionType = SessionType.work →
      (handleTimerEnd cfg s).1.completedPomodoros = s.completedPomodoros + 1 ∧
      (handleTimerEnd cfg s).1.sessionType =
        (if (s.completedPomodoros + 1) % cfg.pomodorosUntilLongBreak = 0
         then SessionType.longBreak else SessionType.shortBreak)) ∧
    (s.sessionType ≠ SessionType.work →
      (handleTimerEnd cfg s).1.sessionType = SessionType.work ∧
      (handleTimerEnd cfg s).1.completedPomodoros = s.completedPomodoros) ∧
    (∀ k < 3,
      ((fun st => (handleTimerEnd ⟨25, 5, 15, 4⟩ st).1)^[2 * k + 1]
        ⟨25 * 60, false, false, SessionType.work, 0⟩).sessionType =
        SessionType.shortBreak) ∧
    ((fun st => (handleTimerEnd ⟨25, 5, 15, 4⟩ st).1)^[7]
        ⟨25 * 60, false, false, SessionType.work, 0⟩).sessionType =
      SessionType.longBreak := by
  refine ⟨?_, ?_, ?_, ?_⟩
  · intro hw
    by_cases hm : (s.completedPomodoros + 1) % cfg.pomodorosUntilLongBreak = 0
    · simp [handleTimerEnd, startLongBreak, hw, hm]
    · simp [handleTimerEnd, startShortBreak, hw, hm]
  · intro hw
    simp [handleTimerEnd, startWorkSession, hw]
  · decide
  · decide

/-- C1 witness: a concrete Work state with 3 completed pomodoros and the
default settings ends into a LongBreak with the count at 4. -/
theorem handleTimerEnd_transition_witness :
    (handleTimerEnd ⟨25, 5, 15, 4⟩ ⟨0, true, false, SessionType.work, 3⟩).1.completedPomodoros
      = 3 + 1 ∧
    (handleTimerEnd ⟨25, 5, 15, 4⟩ ⟨0, true, false, SessionType.work, 3⟩).1.sessionType
      = SessionType.longBreak := by
  have h :=
    (handleTimerEnd_transition ⟨25, 5, 15, 4⟩ ⟨0, true, false, SessionType.work, 3⟩).1 rfl
  exact ⟨h.1, h.2.trans (by decide)⟩

/-- C6: when the timer is not running, updateSettings immediately recomputes
timeRemaining as the merged duration of the active session type times 60;
when it is running the state is left unchanged, and in both cases the stored
settings become the merged settings. -/
theorem updateSettings_recompute (cfg : TimerSettings) (s : TimerState)
    (p : TimerSettingsPatch) :
    (s.isRunning = false →
      (updateSettings cfg s p).2.timeRemaining =
        (match s.sessionType with
         | SessionType.work => ((mergeSettings cfg p).workDuration : Int) * 60
         | SessionType.shortBreak => ((mergeSettings cfg p).shortBreakDuration : Int) * 60
         | SessionType.longBreak => ((mergeSettings cfg p).longBreakDuration : Int) * 60)) ∧
    (s.isRunning = true → (updateSettings cfg s p).2 = s) ∧
    (updateSettings cfg s p).1 = mergeSettings cfg p := by
  refine ⟨?_, ?_, ?_⟩
  · intro hr
    cases hs : s.sessionType <;> simp [updateSettings, hr, hs]
  · intro hr
    simp [updateSettings, hr]
  · by_cases hr : s.isRunning
    · simp [updateSettings, hr]
    · cases hs : s.sessionType <;> simp [updateSettings, hr, hs]

/-- C6 witness: a timer paused during Work with workDuration changed from 25
to 10 immediately shows 600 seconds remaining. -/
theorem updateSettings_recompute_witness :
    (updateSettings ⟨25, 5, 15, 4⟩ ⟨25 * 60, false, true, SessionType.work, 0⟩
        ⟨some 10, none, none, none⟩).2.timeRemaining = 600 := by
  have h :=
    (updateSettings_recompute ⟨25, 5, 15, 4⟩ ⟨25 * 60, false, true, SessionType.work, 0⟩
      ⟨some 10, none, none, none⟩).1 rfl
  exact h.trans (by decide)

/-- C9: restoring a saved snapshot whose timeRemaining is 0 or absent sets
timeRemaining to workDuration times 60 even though the restored sessionType
follows the snapshot independently, and init never restores isRunning, so the
timer is paused after init for every snapshot. -/
theorem timerInit_falsy_restore (cfg : TimerSettings) (sv : SavedTimerState) :
    (sv.timeRemaining = some 0 ∨ sv.timeRemaining = none →
      (timerInit cfg (some sv)).timeRemaining = (cfg.workDuration : Int) * 60) ∧
    (timerInit cfg (some sv)).sessionType = sv.sessionType.getD SessionType.work ∧
    (∀ saved, (timerInit cfg saved).isRunning = false) := by
  refine ⟨?_, ?_, ?_⟩
  · intro h
    rcases h with h | h <;> simp [timerInit, restoreState, jsOrInt, h]
  · simp [timerInit, restoreState]
  · intro saved
    cases saved <;> simp [timerInit, restoreState, initialTimerState]

/-- C9 witness: a snapshot saved mid-break with 0 seconds remaining restores
to a ShortBreak session showing the full work duration, paused. -/
theorem timerInit_falsy_restore_witness :
    (timerInit ⟨25, 5, 15, 4⟩
        (some ⟨some 0, some SessionType.shortBreak, some 2, some true⟩)).timeRemaining
      = 1500 ∧
    (timerInit ⟨25, 5, 15, 4⟩
        (some ⟨some 0, some SessionType.shortBreak, some 2, some true⟩)).sessionType
      = SessionType.shortBreak ∧
    (timerInit ⟨25, 5, 15, 4⟩
        (some ⟨some 0, some SessionType.shortBreak, some 2, some true⟩)).isRunning
      = false := by
  have h :=
    timerInit_falsy_restore ⟨25, 5, 15, 4⟩
      ⟨some 0, some SessionType.shortBreak, some 2, some true⟩
  exact ⟨(h.1 (Or.inl rfl)).trans (by decide), h.2.1.trans (by decide),
    h.2.2 (some ⟨some 0, some SessionType.shortBreak, some 2, some true⟩)⟩

/-- C10: skipBreak invokes no callback (its event trace is empty) and leaves
completedPomodoros unchanged; from a break it moves to a paused Work session
loaded with the full work duration, and from Work it changes nothing at
all. -/
theorem skipBreak_frame (cfg : TimerSettings) (s : TimerState) :
    (skipBreak cfg s).1.completedPomodoros = s.completedPomodoros ∧
    (skipBreak cfg s).2 = [] ∧
    (s.sessionType ≠ SessionType.work →
      (skipBreak cfg s).1.sessionType = SessionType.work ∧
      (skipBreak cfg s).1.timeRemaining = (cfg.workDuration : Int) * 60 ∧
      (skipBreak cfg s).1.isRunning = false) ∧
    (s.sessionType = SessionType.work → skipBreak cfg s = (s, [])) := by
  refine ⟨?_, ?_, ?_, ?_⟩
  · by_cases hw : s.sessionType = SessionType.work <;>
      simp [skipBreak, startWorkSession, hw]
  · by_cases hw : s.sessionType = SessionType.work <;>
      simp [skipBreak, startWorkSession, hw]
  · intro hw
    simp [skipBreak, startWorkSession, hw]
  · intro hw
    simp [skipBreak, hw]

/-- C10 witness: skipping a running short break yields a paused Work session
of 1500 seconds, the pomodoro count untouched and no callback fired. -/
theorem skipBreak_frame_witness :
    (skipBreak ⟨25, 5, 15, 4⟩ ⟨300, true, false, SessionType.shortBreak, 2⟩).1.completedPomodoros
      = 2 ∧
    (skipBreak ⟨25, 5, 15, 4⟩ ⟨300, true, false, SessionType.shortBreak, 2⟩).2 = [] ∧
    (skipBreak ⟨25, 5, 15, 4⟩ ⟨300, true, false, SessionType.shortBreak, 2⟩).1.sessionType
      = SessionType.work ∧
    (skipBreak ⟨25, 5, 15, 4⟩ ⟨300, true, false, SessionType.shortBreak, 2⟩).1.timeRemaining
      = 1500 := by
  have h := skipBreak_frame ⟨25, 5, 15, 4⟩ ⟨300, true, false, SessionType.shortBreak, 2⟩
  have h3 := h.2.2.1 (by decide)
  exact ⟨h.1, h.2.1, h3.1, h3.2.1.trans (by decide)⟩

theorem ticks_safe (cfg : TimerSettings) :
    ∀ (n : Nat) (s : TimerState), (n : Int) < s.timeRemaining →
      (ticks cfg s n).1 = { s with timeRemaining := s.timeRemaining - n } ∧
      ∀ e ∈ (ticks cfg s n).2, isTimerEndEvent e = false := by
  intro n
  induction n with
  | zero =>
    intro s h
    refine ⟨by simp [ticks], ?_⟩
    intro e he
    have hnil : ticks cfg s 0 = (s, []) := rfl
    rw [hnil] at he
    exact absurd he (List.not_mem_nil e)
  | succ n ih =>
    intro s h
    have hgt : ¬ (s.timeRemaining - 1 ≤ 0) := by
      push_cast at h; omega
    have htick : tick cfg s =
        ({ s with timeRemaining := s.timeRemaining - 1 },
         [TimerEvent.onTickCall (s.timeRemaining - 1) s.sessionType]) := by
      simp [tick, hgt]
    have hlt : (n : Int) <
        ({ s with timeRemaining := s.timeRemaining - 1 } : TimerState).timeRemaining := by
      push_cast at h ⊢; omega
    have hih := ih { s with timeRemaining := s.timeRemaining - 1 } hlt
    constructor
    · show (ticks cfg s (n + 1)).1 = _
      rw [ticks, htick]
      simp only [hih.1]
      congr 1
      push_cast
      omega
    · intro e he
      rw [ticks, htick] at he
      simp only [List.mem_append, List.mem_singleton] at he
      rcases he with he | he
      · subst he; rfl
      · exact hih.2 e he

/-- C2: for every duration D bigger than 0 and tick count N below D times 60,
N ticks from a session loaded with D minutes leave exactly D times 60 minus N
seconds, with the session type and pomodoro count untouched and no
end-of-session notification in the trace. -/
theorem ticks_decrement (cfg : TimerSettings) (s : TimerState) (D N : Nat)
    (_hD : 0 < D) (hs : s.timeRemaining = (D : Int) * 60) (hN : N < D * 60) :
    (ticks cfg s N).1.timeRemaining = (D : Int) * 60 - N ∧
    (ticks cfg s N).1.sessionType = s.sessionType ∧
    (ticks cfg s N).1.completedPomodoros = s.completedPomodoros ∧
    ∀ e ∈ (ticks cfg s N).2, isTimerEndEvent e = false := by
  have hlt : (N : Int) < s.timeRemaining := by
    rw [hs]; exact_mod_cast hN
  have h := ticks_safe cfg N s hlt
  refine ⟨?_, ?_, ?_, h.2⟩
  · rw [h.1]; rw [hs]
  · rw [h.1]
  · rw [h.1]

/-- C2 witness: a 1-minute session ticked 59 times shows 1 second left, still
the same Work session, with no end notification fired. -/
theorem ticks_decrement_witness :
    (ticks ⟨25, 5, 15, 4⟩ ⟨60, true, false, SessionType.work, 0⟩ 59).1.timeRemaining
      = (1 : Int) * 60 - 59 ∧
    (ticks ⟨25, 5, 15, 4⟩ ⟨60, true, false, SessionType.work, 0⟩ 59).1.sessionType
      = SessionType.work ∧
    ∀ e ∈ (ticks ⟨25, 5, 15, 4⟩ ⟨60, true, false, SessionType.work, 0⟩ 59).2,
      isTimerEndEvent e = false := by
  have h := ticks_decrement ⟨25, 5, 15, 4⟩ ⟨60, true, false, SessionType.work, 0⟩ 1 59
    (by decide) (by decide) (by decide)
  exact ⟨h.1, h.2.1, h.2.2.2⟩

/-- C3: on the tick that reaches zero, the trace is exactly the onTick call
followed by the onTimerEnd call; the onTimerEnd call carries the session type
that just completed with isRunning already false at the moment of the call,
and only in the resulting state has the transition to the successor session
type with its reloaded duration been performed. -/
theorem tick_end_ordering (cfg : TimerSettings) (s : TimerState)
    (hrun : s.isRunning = true) (hend : s.timeRemaining ≤ 1) :
    (tick cfg s).2 =
      [TimerEvent.onTickCall (s.timeRemaining - 1) s.sessionType,
       TimerEvent.onTimerEndCall s.sessionType false] ∧
    (tick cfg s).1.isRunning = false ∧
    (s.sessionType = SessionType.work →
      (tick cfg s).1.sessionType =
        (if (s.completedPomodoros + 1) % cfg.pomodorosUntilLongBreak = 0
         then SessionType.longBreak else SessionType.shortBreak)) ∧
    (s.sessionType ≠ SessionType.work →
      (tick cfg s).1.sessionType = SessionType.work ∧
      (tick cfg s).1.timeRemaining = (cfg.workDuration : Int) * 60) := by
  have h0 : s.timeRemaining - 1 ≤ 0 := by omega
  refine ⟨?_, ?_, ?_, ?_⟩
  · by_cases hw : s.sessionType = SessionType.work
    · by_cases hm : (s.completedPomodoros + 1) % cfg.pomodorosUntilLongBreak = 0 <;>
        simp [tick, handleTimerEnd, h0, hw, hm, hrun, pause_eq, startLongBreak,
          startShortBreak]
    · simp [tick, handleTimerEnd, h0, hw, hrun, pause_eq, startWorkSession]
  · by_cases hw : s.sessionType = SessionType.work
    · by_cases hm : (s.completedPomodoros + 1) % cfg.pomodorosUntilLongBreak = 0 <;>
        simp [tick, handleTimerEnd, h0, hw, hm, hrun, pause_eq, startLongBreak,
          startShortBreak]
    · simp [tick, handleTimerEnd, h0, hw, hrun, pause_eq, startWorkSession]
  · intro hw
    by_cases hm : (s.completedPomodoros + 1) % cfg.pomodorosUntilLongBreak = 0 <;>
      simp [tick, handleTimerEnd, h0, hw, hm, hrun, pause_eq, startLongBreak,
        startShortBreak]
  · intro hw
    simp [tick, handleTimerEnd, h0, hw, hrun, pause_eq, startWorkSession]

/-- C3 witness: a running short break at 1 second ticks to the trace onTick 0
then onTimerEnd shortBreak with isRunning false, after which the state is a
Work session. -/
theorem tick_end_ordering_witness :
    (tick ⟨25, 5, 15, 4⟩ ⟨1, true, false, SessionType.shortBreak, 2⟩).2 =
      [TimerEvent.onTickCall 0 SessionType.shortBreak,
       TimerEvent.onTimerEndCall SessionType.shortBreak false] ∧
    (tick ⟨25, 5, 15, 4⟩ ⟨1, true, false, SessionType.shortBreak, 2⟩).1.isRunning = false ∧
    (tick ⟨25, 5, 15, 4⟩ ⟨1, true, false, SessionType.shortBreak, 2⟩).1.sessionType
      = SessionType.work := by
  have h := tick_end_ordering ⟨25, 5, 15, 4⟩ ⟨1, true, false, SessionType.shortBreak, 2⟩
    rfl (by decide)
  exact ⟨h.1.trans (by decide), h.2.1, (h.2.2.2 (by decide)).1⟩

/-- C4: a second completion on the day already recorded as lastStreakDate
leaves the stats unchanged; a completion exactly one day later increments the
streak; a completion more than one day later restarts it at 1; a first-ever
completion sets it to 1; and afterwards lastStreakDate is always the current
day. -/
theorem updateStreak_cases (s : Stats) (today : Int) :
    (s.lastStreakDate = some today → updateStreak s today = s) ∧
    (∀ d, s.lastStreakDate = some d → today = d + 1 →
      (updateStreak s today).streak = s.streak + 1) ∧
    (∀ d, s.lastStreakDate = some d → d + 1 < today →
      (updateStreak s today).streak = 1) ∧
    (s.lastStreakDate = none → (updateStreak s today).streak = 1) ∧
    (updateStreak s today).lastStreakDate = some today := by
  refine ⟨?_, ?_, ?_, ?_, ?_⟩
  · intro h
    simp [updateStreak, h]
  · intro d hd ht
    have hdt : ¬ d = today := by omega
    have h1 : today - d = 1 := by omega
    simp [updateStreak, hd, hdt, h1]
  · intro d hd ht
    have hdt : ¬ d = today := by omega
    have h1 : ¬ today - d = 1 := by omega
    have h2 : today - d > 1 := by omega
    simp [updateStreak, hd, hdt, h1, h2]
  · intro h
    have hne : ¬ s.lastStreakDate = some today := by simp [h]
    simp [updateStreak, hne, h]
  · by_cases h : s.lastStreakDate = some today
    · simp [updateStreak, h]
    · simp [updateStreak, h]

/-- C4 witness: with the last streak day at day 10 and a streak of 2, a
completion on day 11 yields a streak of 3 with day 11 recorded, while a
second completion on day 11 then changes nothing. -/
theorem updateStreak_cases_witness :
    (updateStreak ⟨5, 100, 20, 2, some 10⟩ 11).streak = 2 + 1 ∧
    (updateStreak ⟨5, 100, 20, 2, some 10⟩ 11).lastStreakDate = some 11 ∧
    updateStreak ⟨5, 100, 20, 3, some 11⟩ 11 = ⟨5, 100, 20, 3, some 11⟩ := by
  have h := updateStreak_cases ⟨5, 100, 20, 2, some 10⟩ 11
  have h2 := updateStreak_cases ⟨5, 100, 20, 3, some 11⟩ 11
  exact ⟨h.2.1 10 rfl (by decide), h.2.2.2.2, h2.1 rfl⟩

/-- C5: after addHistoryEntry the history holds at most 50 entries; the
result is exactly the most recent entries of the appended list in append
order (the drop of all but the last 50), hence a suffix of the old history
with the new entry appended, and when the cap is not exceeded nothing is
dropped at all. -/
theorem addHistoryEntry_cap (h : List HistoryEntry) (e : HistoryEntry) :
    (addHistoryEntry h e).length ≤ 50 ∧
    addHistoryEntry h e = (h ++ [e]).drop ((h ++ [e]).length - 50) ∧
    (addHistoryEntry h e).IsSuffix (h ++ [e]) ∧
    ((h ++ [e]).length ≤ 50 → addHistoryEntry h e = h ++ [e]) := by
  unfold addHistoryEntry saveHistory
  by_cases hlen : (h ++ [e]).length > 50
  · rw [if_pos hlen]
    refine ⟨?_, rfl, List.drop_suffix _ _, ?_⟩
    · rw [List.length_drop]; omega
    · intro hc; omega
  · rw [if_neg hlen]
    push_neg at hlen
    have h0 : (h ++ [e]).length - 50 = 0 := by omega
    exact ⟨hlen, by rw [h0, List.drop_zero], List.suffix_refl _, fun _ => rfl⟩

/-- C5 witness: appending to an empty history keeps the single entry. -/
theorem addHistoryEntry_cap_witness :
    (addHistoryEntry [] ⟨0, 25, none⟩).length ≤ 50 ∧
    addHistoryEntry [] ⟨0, 25, none⟩ = [⟨0, 25, none⟩] := by
  have h := addHistoryEntry_cap [] ⟨0, 25, none⟩
  exact ⟨h.1, (h.2.2.2 (by decide)).trans (by decide)⟩

theorem le_clampInt (lo hi x : Int) : lo ≤ clampInt lo hi x :=
  le_max_left lo _

theorem clampInt_le (lo hi x : Int) (h : lo ≤ hi) : clampInt lo hi x ≤ hi :=
  max_le h (min_le_left hi x)

/-- C7: whatever the form holds, including empty or non-numeric numeric
fields, the settings stored by saveFromForm satisfy workDuration in 1 to 60,
shortBreakDuration in 1 to 15, longBreakDuration in 5 to 60 and
pomodorosUntilLongBreak in 2 to 10, the latter in particular an integer of
at least 2. -/
theorem saveFromForm_ranges (form : SettingsForm) :
    1 ≤ (saveFromForm form).workDuration ∧ (saveFromForm form).workDuration ≤ 60 ∧
    1 ≤ (saveFromForm form).shortBreakDuration ∧
    (saveFromForm form).shortBreakDuration ≤ 15 ∧
    5 ≤ (saveFromForm form).longBreakDuration ∧
    (saveFromForm form).longBreakDuration ≤ 60 ∧
    2 ≤ (saveFromForm form).pomodorosUntilLongBreak ∧
    (saveFromForm form).pomodorosUntilLongBreak ≤ 10 := by
  refine ⟨?_, ?_, ?_, ?_, ?_, ?_, ?_, ?_⟩ <;>
    simp only [saveFromForm] <;>
    first
      | exact le_clampInt _ _ _
      | exact clampInt_le _ _ _ (by decide)

theorem mem_flipFirst_of_ne (now i : Nat) (u : Task) :
    ∀ l : List Task, u ∈ l → (u.id == i) = false → u ∈ flipFirst now i l := by
  intro l
  induction l with
  | nil => intro h _; exact absurd h (List.not_mem_nil u)
  | cons t ts ih =>
    intro hmem hne
    rcases List.mem_cons.mp hmem with hu | hu
    · subst hu
      rw [flipFirst, if_neg (by simp [hne])]
      exact List.mem_cons_self u (flipFirst now i ts)
    · by_cases ht : (t.id == i) = true
      · rw [flipFirst, if_pos ht]
        exact List.mem_cons_of_mem _ hu
      · rw [flipFirst, if_neg ht]
        exact List.mem_cons_of_mem _ (ih hu hne)

theorem toggledTask_id (now : Nat) (t : Task) : (toggledTask now t).id = t.id := by
  unfold toggledTask; split <;> rfl

theorem toggledTask_completed_of_completed (now : Nat) (t : Task)
    (h : t.completed = true) : (toggledTask now t).completed = false := by
  unfold toggledTask
  rw [if_pos h]

theorem flipped_mem_of_find (now i : Nat) :
    ∀ (l : List Task) (t : Task), l.find? (fun u => u.id == i) = some t →
      toggledTask now t ∈ flipFirst now i l := by
  intro l
  induction l with
  | nil => intro t h; simp [List.find?] at h
  | cons a as ih =>
    intro t h
    rw [List.find?_cons] at h
    cases hab : (a.id == i) with
    | false =>
      simp only [hab] at h
      rw [flipFirst, if_neg (by simp [hab])]
      exact List.mem_cons_of_mem _ (ih t h)
    | true =>
      simp only [hab] at h
      injection h with h
      subst h
      rw [flipFirst, if_pos hab]
      exact List.mem_cons_self _ _

/-- C8: the active-task designation always names an existing non-completed
task: the invariant is established by init (which discards a stale or
completed saved id) and preserved by toggleTask and deleteTask; moreover
completing the active task via toggleTask clears the designation, as does
deleting the active task. -/
theorem activeTask_invariant :
    (∀ (s : TasksState) (i now : Nat), ActiveOk s → ActiveOk (toggleTask s i now)) ∧
    (∀ (s : TasksState) (i : Nat), ActiveOk s → ActiveOk (deleteTask s i)) ∧
    (∀ (ts : List Task) (sid : Option Nat), ActiveOk (tasksInit ts sid)) ∧
    (∀ (s : TasksState) (i now : Nat) (t : Task),
      s.tasks.find? (fun u => u.id == i) = some t → t.completed = false →
      s.activeTaskId = some i → (toggleTask s i now).activeTaskId = none) ∧
    (∀ (s : TasksState) (i : Nat), s.activeTaskId = some i →
      (deleteTask s i).activeTaskId = none) := by
  refine ⟨?_, ?_, ?_, ?_, ?_⟩
  · intro s i now hok a ha
    unfold toggleTask at ha ⊢
    rcases hfind : s.tasks.find? (fun u => u.id == i) with _ | t
    · rw [hfind] at ha ⊢
      exact hok a ha
    · rw [hfind] at ha ⊢
      simp only at ha ⊢
      by_cases hclear : t.completed = false ∧ s.activeTaskId = some i
      · rw [if_pos hclear] at ha
        exact absurd ha (by simp)
      · rw [if_neg hclear] at ha
        obtain ⟨u, hu_mem, hu_id, hu_nc⟩ := hok a ha
        by_cases hui : (u.id == i) = true
        · have hci : u.id = i := eq_of_beq hui
          have hai : a = i := by omega
          have htc : t.completed = true := by
            rcases Bool.eq_false_or_eq_true t.completed with ht | hf
            · exact ht
            · exact absurd ⟨hf, hai ▸ ha⟩ hclear
          refine ⟨toggledTask now t, flipped_mem_of_find now i s.tasks t hfind, ?_, ?_⟩
          · rw [toggledTask_id]
            have hfp0 := List.find?_some hfind
            have hfp : (t.id == i) = true := hfp0
            have hti : t.id = i := eq_of_beq hfp
            omega
          · exact toggledTask_completed_of_completed now t htc
        · refine ⟨u, ?_, hu_id, hu_nc⟩
          exact mem_flipFirst_of_ne now i u s.tasks hu_mem (by simpa using hui)
  · intro s i hok a ha
    unfold deleteTask at ha ⊢
    simp only at ha ⊢
    by_cases hai : s.activeTaskId = some i
    · rw [if_pos hai] at ha
      exact absurd ha (by simp)
    · rw [if_neg hai] at ha
      obtain ⟨u, hu_mem, hu_id, hu_nc⟩ := hok a ha
      have hne : a ≠ i := by
        intro hc
        subst hc
        exact hai ha
      refine ⟨u, ?_, hu_id, hu_nc⟩
      rw [List.mem_filter]
      refine ⟨hu_mem, ?_⟩
      simp [hu_id, hne]
  · intro ts sid a ha
    rcases sid with _ | i
    · simp [tasksInit] at ha
    · have ha2 : (if (ts.any fun t => t.id == i && !t.completed) = true
          then (some i : Option Nat) else none) = some a := ha
      by_cases hany : (ts.any fun t => t.id == i && !t.completed) = true
      · rw [if_pos hany] at ha2
        injection ha2 with ha2
        obtain ⟨t, ht_mem, ht_p⟩ := List.any_eq_true.mp hany
        rw [Bool.and_eq_true] at ht_p
        refine ⟨t, ht_mem, ?_, ?_⟩
        · have hti : t.id = i := eq_of_beq ht_p.1
          omega
        · simpa using ht_p.2
      · rw [if_neg hany] at ha2
        exact absurd ha2 (by simp)
  · intro s i now t hfind hnc ha
    unfold toggleTask
    rw [hfind]
    simp only
    rw [if_pos ⟨hnc, ha⟩]
  · intro s i ha
    unfold deleteTask
    simp only
    rw [if_pos ha]

/-- C8 witness: with a single incomplete task of id 1 active, deleting it or
completing it clears the active designation. -/
theorem activeTask_invariant_witness :
    (deleteTask ⟨[⟨1, "a", false, 0, none, 1, 0⟩], some 1⟩ 1).activeTaskId = none ∧
    (toggleTask ⟨[⟨1, "a", false, 0, none, 1, 0⟩], some 1⟩ 1 99).activeTaskId = none := by
  refine ⟨activeTask_invariant.2.2.2.2 _ 1 rfl, ?_⟩
  exact activeTask_invariant.2.2.2.1 ⟨[⟨1, "a", false, 0, none, 1, 0⟩], some 1⟩ 1 99
    ⟨1, "a", false, 0, none, 1, 0⟩ rfl rfl rfl

end HarnessApp
